import Mathlib

/-!
Shallow embedding of the ClockCaster race-timing ingestion scripts
(`cc_parse.py` and `cc_scrape.py`) and proofs about them.

Modelling conventions:
* a Python string is a `List Char` (abbreviated `Str`);
* Python `None` is `Option.none`; a dict key that may be absent is an
  `Option` field; a Python function that returns `None` on failure is an
  `Option`-valued function;
* an uncaught Python exception is `Except.error`;
* the persistent store (Supabase tables) is a list of rows plus a counter
  supplying the next fresh id; `select`-by-filter is `List.find?`, `insert`
  appends a row, and `update` by id rewrites the matching row, touching only
  the columns present in the update payload.
-/

abbrev Str := List Char

/-- Python `event_name.replace(" ", "_")`: every space character becomes an
underscore (single-character from/to, hence a pointwise map). -/
def replaceSpaceUnderscore (s : Str) : Str :=
  s.map (fun c => if c = ' ' then '_' else c)

/-- Python `str.lower()` on the ASCII strings this program manipulates. -/
def strToLower (s : Str) : Str := s.map Char.toLower

/-- `generate_race_fingerprint` from `cc_parse.py` (lines 156-165).  The five
components are the event name, `str(race_data.get("race_day", ""))`,
`str(race_data.get("race_num", ""))`, `schedule_item.get("cat_abrev", "")`
and `schedule_item.get("race_abrev", "")`; an absent dict key arrives here as
the empty string, so the model takes five plain strings.  `filter(None, ...)`
keeps exactly the nonempty components. -/
def generate_race_fingerprint
    (event_name race_day race_num cat_abrev race_abrev : Str) : Str :=
  strToLower (List.intercalate ['_']
    (([replaceSpaceUnderscore event_name, race_day, race_num,
       cat_abrev, race_abrev]).filter (fun comp => !comp.isEmpty)))

/-- Modelled from the spec (§4.2), for comparison with the source definition:
substitute spaces in the event name with underscores, concatenate the five
components with `_` separators dropping empty components, and lowercase the
result. -/
def fingerprint_spec (e d n c r : Str) : Str :=
  (List.intercalate ['_']
    (([e.map (fun ch => if ch = ' ' then '_' else ch), d, n, c, r]).filter
      (fun comp => !comp.isEmpty))).map Char.toLower

/-- Numeric value of a list of ASCII digits, most significant first. -/
def digitsVal (s : Str) : Nat := s.foldl (fun n c => 10 * n + (c.toNat - 48)) 0

/-- Value of a nonempty all-digit string; `none` otherwise. -/
def parseDigits (s : Str) : Option Nat :=
  if s = [] then none
  else if s.all Char.isDigit then some (digitsVal s) else none

/-- Models the fragment of the Python `int(...)` constructor that this
program can reach: an optional leading sign followed by one or more ASCII
digits.  (The full constructor also strips surrounding whitespace and accepts
underscore separators; no claim settled here depends on such inputs.) -/
def pyInt (s : Str) : Option Int :=
  match s with
  | [] => none
  | c :: rest =>
    if c = '-' then (parseDigits rest).map (fun n => -(n : Int))
    else if c = '+' then (parseDigits rest).map (fun n => (n : Int))
    else (parseDigits (c :: rest)).map (fun n => (n : Int))

/-- Unsigned decimal literal as accepted by Python `float(...)`: digits with
an optional fractional part (`D+`, `D+.D*` or `.D+`). -/
def pyFloatBody (s : Str) : Option ℚ :=
  match List.splitOn '.' s with
  | [ip] => (parseDigits ip).map (fun n => (n : ℚ))
  | [ip, fp] =>
    if ip.isEmpty && fp.isEmpty then none
    else if ip.all Char.isDigit && fp.all Char.isDigit then
      some ((digitsVal ip : ℚ) + (digitsVal fp : ℚ) / (10 : ℚ) ^ fp.length)
    else none
  | _ => none

/-- Models the fragment of the Python `float(...)` constructor that this
program can reach: an optional sign and a decimal literal.  (The full
constructor also accepts exponents, `inf`/`nan` and surrounding whitespace;
no claim settled here depends on such inputs.) -/
def pyFloat (s : Str) : Option ℚ :=
  match s with
  | [] => none
  | c :: rest =>
    if c = '-' then (pyFloatBody rest).map (fun q => -q)
    else if c = '+' then pyFloatBody rest
    else pyFloatBody (c :: rest)

/-- Python `int(x)` applied to a number truncates toward zero. -/
def ratTrunc (q : ℚ) : Int := if q < 0 then -Rat.floor (-q) else Rat.floor q

/-- The IEEE-754 double overflow boundary under round-to-nearest: a real
value of magnitude at least `2 ^ 1024 - 2 ^ 970` rounds to infinity.
CPython uses it in every conversion this program performs: `float(s)` on a
decimal string returns `inf` from this magnitude on, and converting an
`int` to a double (as in `int + float`) raises `OverflowError` from the
same magnitude on. -/
def floatOverflowBound : ℚ := 2 ^ 1024 - 2 ^ 970

/-- Embeds `convert_time_to_ms` from `cc_parse.py` (lines 15-29).  Falsy
(empty) input yields `none`; the string is split on `:`; exactly two parts
are converted by `int(minutes) * 60 + float(seconds)`, scaled to
milliseconds and truncated by `int(...)`; any exception raised inside the
`try` is caught, yielding `none`.  The float pipeline can overflow: the
exact `int(minutes) * 60` raises `OverflowError` at its conversion to
double when it reaches `floatOverflowBound`; `float(seconds)` becomes
`inf` there; and the subsequent sum and product overflow to `inf` there,
after which `int(inf)` raises — every such path ends in `none`, modelled
by the guard below.  In-range arithmetic is modelled in exact rationals
where CPython rounds each operation to a double, so within one unit in the
last place of the boundary — and of the final integer truncation — the
model and CPython can disagree; the claims settled here keep far from the
boundary and use inputs whose arithmetic is exact. -/
def convert_time_to_ms (time_str : Str) : Option Int :=
  if time_str = [] then none
  else
    match List.splitOn ':' time_str with
    | [m, s] => do
      let mi ← pyInt m
      let sv ← pyFloat s
      if |(mi : ℚ) * 60| ≥ floatOverflowBound ∨ |sv| ≥ floatOverflowBound ∨
          |(mi : ℚ) * 60 + sv| ≥ floatOverflowBound ∨
          |((mi : ℚ) * 60 + sv) * 1000| ≥ floatOverflowBound then none
      else pure (ratTrunc (((mi : ℚ) * 60 + sv) * 1000))
    | _ => none

/-- Decimal digits of a natural number, as Python `str(...)` renders it. -/
def natToStr (n : Nat) : Str := Nat.toDigits 10 n

def intToStr (i : Int) : Str :=
  if i < 0 then '-' :: natToStr i.natAbs else natToStr i.toNat

/-- Python `format(i, "02d")`: left-pad with zeros to width two. -/
def pad2 (i : Int) : Str :=
  let s := intToStr i
  if s.length < 2 then '0' :: s else s

/-- Embeds `parse_date` from `cc_parse.py` (lines 31-41).  The source takes
the year from the ambient wall clock (`datetime.now().year`, commented "Use
current year"); the model makes that ambient dependency an explicit
`currentYear` argument.  `month, day = date_str.split('/')` raises unless the
split has exactly two parts, and `int(...)` raises on non-numeric parts; the
`except` turns every such failure into `none`. -/
def parse_date (currentYear : Nat) (date_str : Str) : Option Str :=
  if date_str = [] then none
  else
    match List.splitOn '/' date_str with
    | [m, d] => do
      let mv ← pyInt m
      let dv ← pyInt d
      pure (natToStr currentYear ++ '-' :: (pad2 mv ++ '-' :: pad2 dv))
    | _ => none

/-- Meridiem marker of `strptime`'s `%p` directive: `AM`/`PM` in any case;
`true` means PM. -/
def parseMeridiem (s : Str) : Option Bool :=
  if strToLower s = ['a', 'm'] then some false
  else if strToLower s = ['p', 'm'] then some true
  else none

/-- Embeds `parse_race_time` from `cc_parse.py` (lines 43-53):
`datetime.strptime(time_str, '%I:%M%p')` followed by
`strftime('%H:%M:%S')`.  `%I` is one or two digits in 1..12, `%M` one or two
digits in 0..59, `%p` an `AM`/`PM` marker; a failed parse raises inside the
`try` and yields `none`. -/
def parse_race_time (time_str : Str) : Option Str :=
  if time_str = [] then none
  else
    match List.splitOn ':' time_str with
    | [h, rest] => do
      let hd := rest.takeWhile Char.isDigit
      let mer := rest.dropWhile Char.isDigit
      let hv ← parseDigits h
      let mv ← parseDigits hd
      let pm ← parseMeridiem mer
      if h.length ≤ 2 ∧ 1 ≤ hv ∧ hv ≤ 12 ∧ hd.length ≤ 2 ∧ mv ≤ 59 then
        pure (pad2 ((if pm then (if hv = 12 then 12 else hv + 12)
                     else (if hv = 12 then 0 else hv) : Nat) : Int) ++
          ':' :: (pad2 (mv : Int) ++ [':', '0', '0']))
      else none
    | _ => none

/-- Seconds field of `%S[.%f]`: one or two digits in 0..59 with an optional
fractional part of one to six digits, which the final `strftime('%H:%M:%S')`
discards. -/
def parseSeconds (s : Str) : Option Nat :=
  match List.splitOn '.' s with
  | [sec] => do
    let sv ← parseDigits sec
    if sec.length ≤ 2 ∧ sv ≤ 59 then pure sv else none
  | [sec, fr] => do
    let sv ← parseDigits sec
    let _ ← parseDigits fr
    if sec.length ≤ 2 ∧ sv ≤ 59 ∧ fr.length ≤ 6 ∧ fr.all Char.isDigit then
      pure sv
    else none
  | _ => none

/-- Embeds `format_race_time` from `cc_parse.py` (lines 55-70).  With a colon
present, a two-part split is parsed as `00:MM:SS[.fff]` and a three-part
split as `HH:MM:SS[.fff]` (via `strptime`), then reformatted as `HH:MM:SS`;
anything else, and any `strptime` failure, yields `none`. -/
def format_race_time (time_str : Str) : Option Str :=
  if time_str = [] then none
  else if time_str.contains ':' then
    match List.splitOn ':' time_str with
    | [m, s] => do
      let mv ← parseDigits m
      let sv ← parseSeconds s
      if m.length ≤ 2 ∧ mv ≤ 59 then
        pure (pad2 (0 : Int) ++ ':' :: (pad2 (mv : Int) ++ ':' :: pad2 (sv : Int)))
      else none
    | [h, m, s] => do
      let hv ← parseDigits h
      let mv ← parseDigits m
      let sv ← parseSeconds s
      if h.length ≤ 2 ∧ hv ≤ 23 ∧ m.length ≤ 2 ∧ mv ≤ 59 then
        pure (pad2 (hv : Int) ++ ':' :: (pad2 (mv : Int) ++ ':' :: pad2 (sv : Int)))
      else none
    | _ => none
  else none

/-- Python truthiness of an optional string: `None` and `""` are falsy. -/
def truthyStr : Option Str → Bool
  | none => false
  | some s => !s.isEmpty

structure CompetitorRow where
  id : Nat
  name_long : Option Str
  name_short : Option Str
  designation : Option Str
  external_id : Option Str
deriving DecidableEq

structure CompetitorData where
  name_long : Option Str
  name_short : Option Str
  designation : Option Str
  external_id : Option Str
deriving DecidableEq

/-- The competitor lookup filter built in `get_or_create_competitor`
(`cc_parse.py` lines 80-87): always `.eq("name_long", name_long)`; then
`.eq("designation", designation)` when `designation` is truthy, else
`.is_("designation", None)`.  An SQL `eq` filter never matches a null
column. -/
def competitorMatches (nl : Str) (designation : Option Str)
    (r : CompetitorRow) : Bool :=
  r.name_long == some nl &&
    (if truthyStr designation then r.designation == designation
     else r.designation == none)

/-- Embeds `get_or_create_competitor` (`cc_parse.py` lines 72-104) over a
store of rows plus the next fresh id; the result is the resolved id (`none`
is the skip outcome) with the store after the call.  A falsy `name_long`
short-circuits; a found row's id is returned with no write; otherwise the
payload built from the input is inserted. -/
def get_or_create_competitor (rows : List CompetitorRow) (nextId : Nat)
    (data : CompetitorData) : Option Nat × List CompetitorRow × Nat :=
  if truthyStr data.name_long then
    let nl := data.name_long.getD []
    match rows.find? (competitorMatches nl data.designation) with
    | some r => (some r.id, rows, nextId)
    | none =>
      (some nextId,
        rows ++ [⟨nextId, some nl, data.name_short, data.designation, data.external_id⟩],
        nextId + 1)
  else (none, rows, nextId)

structure CategoryRow where
  id : Nat
  name : Option Str
  title : Option Str
  course_length : Option Str
  abbreviation : Option Str
deriving DecidableEq

structure CategoryData where
  name : Option Str
  title : Option Str
  course_length : Option Str
deriving DecidableEq

/-- Embeds `get_or_create_category` (`cc_parse.py` lines 106-126): lookup by
`name` alone; a found row's id is returned with no write; otherwise the
payload (with the separately passed abbreviation) is inserted. -/
def get_or_create_category (rows : List CategoryRow) (nextId : Nat)
    (data : CategoryData) (abbreviation : Option Str) :
    Option Nat × List CategoryRow × Nat :=
  if truthyStr data.name then
    let nm := data.name.getD []
    match rows.find? (fun r => r.name == some nm) with
    | some r => (some r.id, rows, nextId)
    | none =>
      (some nextId,
        rows ++ [⟨nextId, some nm, data.title, data.course_length, abbreviation⟩],
        nextId + 1)
  else (none, rows, nextId)

structure EventRow where
  id : Nat
  name : Option Str
  start_date : Option Str
  end_date : Option Str
  location : Option Str
  provider_id : Option Nat
deriving DecidableEq

structure EventData where
  name : Option Str
  start_date : Option Str
  end_date : Option Str
  location : Option Str
deriving DecidableEq

/-- The full event payload written by `upsert_event`: `end_date` falls back
to `start_date` (Python `or`), `provider_id` is the constant 1. -/
def eventPayload (i : Nat) (data : EventData) (nm sd : Str) : EventRow :=
  ⟨i, some nm, some sd,
    some (if truthyStr data.end_date then data.end_date.getD [] else sd),
    data.location, some 1⟩

/-- Embeds `upsert_event` (`cc_parse.py` lines 128-154): lookup by `(name,
start_date)`; a found row is overwritten with the full payload; otherwise
the payload is inserted. -/
def upsert_event (rows : List EventRow) (nextId : Nat) (data : EventData) :
    Option Nat × List EventRow × Nat :=
  if truthyStr data.name && truthyStr data.start_date then
    let nm := data.name.getD []
    let sd := data.start_date.getD []
    match rows.find? (fun r => r.name == some nm && r.start_date == some sd) with
    | some r =>
      (some r.id,
        rows.map (fun row => if row.id == r.id then eventPayload r.id data nm sd else row),
        nextId)
    | none => (some nextId, rows ++ [eventPayload nextId data nm sd], nextId + 1)
  else (none, rows, nextId)

/-- One iteration of the polling loop in `poll_and_process` (`cc_parse.py`
lines 277-307), abstracted over the payload and store types.  `hashFn`
stands for `calculate_data_hash` — the MD5 hex digest of the canonically
serialised payload; the loop inspects nothing but equality of hash values,
so the hash function is a parameter.  `process` stands for the entity-table
writes performed by `save_data_to_file`/`process_data`.  `data = none` is a
failed fetch: the loop sleeps and retries with its state unchanged.  When
the hash equals the recorded baseline, synchronisation is skipped for the
tick. -/
def poll_tick {Payload Store : Type} (hashFn : Payload → Str)
    (process : Payload → Store → Store)
    (data : Option Payload) (lastHash : Option Str) (store : Store) :
    Option Str × Store :=
  match data with
  | none => (lastHash, store)
  | some d =>
    let h := hashFn d
    if some h = lastHash then (lastHash, store)
    else (some h, process d store)

/-- One raw result record of a schedule item, as read by `process_data`
(`cc_parse.py` lines 359-382); every key may be absent.  The numeric
pass-through fields `adjustment` and `handicap` are modelled as integers
(their type is never inspected). -/
structure RawResult where
  placement : Option Str
  lane_boat_number : Option Str
  start_time : Option Str
  finish_time : Option Str
  raw_time : Option Str
  total_time : Option Str
  adjustment : Option Int
  handicap : Option Int
  remark : Option Str
  notes : Option Str
deriving DecidableEq

/-- The result payload assembled in `process_data` (`cc_parse.py` lines
370-385) after the final dict comprehension has removed every `None`-valued
key: a `none` field here is a key absent from the payload. -/
structure ResultData where
  competitor_id : Nat
  placement : Option Int
  lane_boat_number : Option Str
  start_time : Option Str
  finish_time : Option Str
  raw_time : Option Str
  total_time : Option Int
  adjustment : Option Int
  handicap : Option Int
  remark : Option Str
  notes : Option Str
deriving DecidableEq

/-- The placement conversion
`int(result["placement"]) if result.get("placement") else None`
(`cc_parse.py` line 372): a falsy placement becomes `None`; a truthy
placement that is not an integer literal makes `int(...)` raise an uncaught
`ValueError`, modelled as `Except.error`. -/
def placementStep (r : RawResult) : Except Unit (Option Int) :=
  if truthyStr r.placement then
    match pyInt (r.placement.getD []) with
    | some v => pure (some v)
    | none => throw ()
  else pure none

/-- Builds the result payload of `process_data` (`cc_parse.py` lines
370-385).  All fields except placement go through total parsers that
substitute `None` on failure; the comprehension that filters `None` values
is the `Option` representation of `ResultData` itself. -/
def prepare_result_data (competitor_id : Nat) (r : RawResult) :
    Except Unit ResultData :=
  (placementStep r).map (fun placement =>
    ⟨competitor_id, placement, r.lane_boat_number,
      format_race_time (r.start_time.getD []),
      format_race_time (r.finish_time.getD []),
      format_race_time (r.raw_time.getD []),
      convert_time_to_ms (r.total_time.getD []),
      r.adjustment, r.handicap, r.remark, r.notes⟩)

/-- A stored result row; nullable columns are `Option`. -/
structure ResultRow where
  id : Nat
  schedule_id : Nat
  competitor_id : Nat
  lane_boat_number : Str
  placement : Option Int
  start_time : Option Str
  finish_time : Option Str
  raw_time : Option Str
  total_time : Option Int
  adjustment : Option Int
  handicap : Option Int
  remark : Option Str
  notes : Option Str
deriving DecidableEq

/-- A column written by an update only when its key is present in the
payload. -/
def updCol {α : Type} (pv : Option α) (old : Option α) : Option α :=
  match pv with
  | some v => some v
  | none => old

/-- A store `update` with the `None`-filtered result payload: only columns
whose key is present are written; the rest keep the row's stored value. -/
def applyResultUpdate (row : ResultRow) (p : ResultData) (schedule_id : Nat) :
    ResultRow :=
  ⟨row.id, schedule_id, p.competitor_id,
    p.lane_boat_number.getD row.lane_boat_number,
    updCol p.placement row.placement,
    updCol p.start_time row.start_time,
    updCol p.finish_time row.finish_time,
    updCol p.raw_time row.raw_time,
    updCol p.total_time row.total_time,
    updCol p.adjustment row.adjustment,
    updCol p.handicap row.handicap,
    updCol p.remark row.remark,
    updCol p.notes row.notes⟩

/-- The row inserted for a fresh result: absent payload keys become nulls. -/
def newResultRow (i : Nat) (p : ResultData) (schedule_id : Nat) (lane : Str) :
    ResultRow :=
  ⟨i, schedule_id, p.competitor_id, lane, p.placement, p.start_time,
    p.finish_time, p.raw_time, p.total_time, p.adjustment, p.handicap,
    p.remark, p.notes⟩

/-- Embeds `upsert_result` (`cc_parse.py` lines 211-229): a falsy lane/boat
number short-circuits; otherwise the row keyed by `(schedule_id,
lane_boat_number)` is updated with the payload when present, else
inserted. -/
def upsert_result (rows : List ResultRow) (nextId : Nat) (p : ResultData)
    (schedule_id : Nat) : Option Nat × List ResultRow × Nat :=
  if truthyStr p.lane_boat_number then
    let lane := p.lane_boat_number.getD []
    match rows.find? (fun r =>
        r.schedule_id == schedule_id && r.lane_boat_number == lane) with
    | some r =>
      (some r.id,
        rows.map (fun row =>
          if row.id == r.id then applyResultUpdate r p schedule_id else row),
        nextId)
    | none => (some nextId, rows ++ [newResultRow nextId p schedule_id lane], nextId + 1)
  else (none, rows, nextId)

/-- The `re.sub(r"\\](?=-)", "] ", header_text)` normalisation of
`cc_scrape.py` line 74: a space is inserted after every `]` that is
immediately followed by `-` (the lookahead does not consume the `-`). -/
def normalizeHeader : Str → Str
  | [] => []
  | ']' :: rest =>
    ']' :: (match rest with
      | '-' :: _ => ' ' :: normalizeHeader rest
      | _ => normalizeHeader rest)
  | c :: rest => c :: normalizeHeader rest

/-- Python `header_text.split(" - ")` (`cc_scrape.py` line 75): greedy
left-to-right split on the three-character separator. -/
def splitDash : Str → List Str
  | [] => [[]]
  | ' ' :: '-' :: ' ' :: rest => [] :: splitDash rest
  | c :: rest =>
    match splitDash rest with
    | [] => [[c]]
    | h :: t => (c :: h) :: t

/-- Python `str.split()` with no argument, specialised to the space-only
whitespace occurring in these headers: split on space runs, dropping empty
tokens. -/
def splitWs (s : Str) : List Str :=
  (List.splitOn ' ' s).filter (fun t => !t.isEmpty)

/-- Python `str.strip()` on the space-only whitespace of these fragments. -/
def stripStr (s : Str) : Str :=
  ((s.dropWhile (fun c => c == ' ')).reverse.dropWhile (fun c => c == ' ')).reverse

/-- Python `tok.strip("[]")`: drop every leading and trailing `[` or `]`. -/
def stripBrackets (s : Str) : Str :=
  ((s.dropWhile (fun c => c == '[' || c == ']')).reverse.dropWhile
    (fun c => c == '[' || c == ']')).reverse

/-- Python `str.zfill(2)` on the digit fragments appearing here. -/
def zfill2 (s : Str) : Str := List.replicate (2 - s.length) '0' ++ s

/-- The event-year selection of `cc_scrape.py` lines 123-126: the first
component of the event `start_date` when that splits into three
`-`-separated parts, else the literal `"2024"`. -/
def eventYear (startDate : Option Str) : Str :=
  match startDate with
  | some sd =>
    match List.splitOn '-' sd with
    | [y, _, _] => y
    | _ => ['2', '0', '2', '4']
  | none => ['2', '0', '2', '4']

/-- The `[M/D]` race-day token scan of `cc_scrape.py` lines 118-131 applied
to one token: a bracketed `M/D` token yields the zero-padded
`eyear-MM-DD`. -/
def parseDateToken (startDate : Option Str) (tok : Str) : Option Str :=
  if tok.head? == some '[' && tok.getLast? == some ']' then
    match List.splitOn '/' (stripBrackets tok) with
    | [mp, dp] =>
      some (eventYear startDate ++ '-' :: (zfill2 mp ++ '-' :: zfill2 dp))
    | _ => none
  else none

/-- The per-race record extracted from one `h4` heading text. -/
structure RaceData where
  cat_abrev : Str
  category_name : Str
  race_num : Option Str
  race_time : Option Str
  race_day : Option Str
deriving DecidableEq

/-- Embeds the header-text processing of the race-header loop
(`cc_scrape.py` lines 64-148): normalise, split on `" - "` (fewer than two
parts skips the header), extract the parenthesised category abbreviation —
falling back to the category name when absent or empty — and parse race
number (trailing colon stripped), race time (tokens 1 and 2 joined) and
race day (last bracketed `M/D` token) from the whitespace-split left part.
The results-table walk is DOM traversal and out of scope here. -/
def processHeader (startDate : Option Str) (headerText : Str) :
    Option RaceData :=
  match splitDash (normalizeHeader headerText) with
  | p0 :: p1 :: _ =>
    let hasParens := p1.contains '(' && p1.contains ')'
    let catName0 :=
      if hasParens then stripStr (p1.take (p1.indexOf '(')) else p1
    let catAbrevExtract :=
      if hasParens then
        some (stripStr ((p1.drop (p1.indexOf '(' + 1)).take
          (p1.indexOf ')' - (p1.indexOf '(' + 1))))
      else none
    let cat_abrev :=
      match catAbrevExtract with
      | some a => if !a.isEmpty then a else catName0
      | none => catName0
    let left_parts := splitWs p0
    let race_num :=
      match left_parts with
      | [] => none
      | w :: _ => some (if w.getLast? = some ':' then w.dropLast else w)
    let race_time :=
      match left_parts with
      | _ :: a :: b :: _ => some (a ++ ' ' :: b)
      | _ => none
    let race_day := left_parts.foldl
      (fun acc tok =>
        match parseDateToken startDate tok with
        | some d => some d
        | none => acc) none
    some ⟨cat_abrev, stripStr catName0, race_num, race_time, race_day⟩
  | _ => none

/-- The schedule assembly guard of `cc_scrape.py` lines 197-202: a race is
appended to the schedule only when its `cat_abrev` is present and truthy. -/
def scheduleOfHeaders (startDate : Option Str) (headers : List Str) :
    List RaceData :=
  headers.filterMap (fun h =>
    match processHeader startDate h with
    | some rd => if !rd.cat_abrev.isEmpty then some rd else none
    | none => none)

/-- The worked header of spec §8:
`"12: [12/8] 7:30 AM - Mens Varsity 8 (MV8)"`. -/
def exampleHeader : Str :=
  ['1', '2', ':', ' ', '[', '1', '2', '/', '8', ']', ' ', '7', ':', '3', '0',
   ' ', 'A', 'M', ' ', '-', ' ', 'M', 'e', 'n', 's', ' ', 'V', 'a', 'r', 's',
   'i', 't', 'y', ' ', '8', ' ', '(', 'M', 'V', '8', ')']

/-- The record the race-header loop produces for `exampleHeader` (with no
event start date, so the fallback year 2024). -/
def exampleRace : RaceData :=
  ⟨['M', 'V', '8'],
   ['M', 'e', 'n', 's', ' ', 'V', 'a', 'r', 's', 'i', 't', 'y', ' ', '8'],
   some ['1', '2'],
   some ['[', '1', '2', '/', '8', ']', ' ', '7', ':', '3', '0'],
   some ['2', '0', '2', '4', '-', '1', '2', '-', '0', '8']⟩

theorem map_eq_self_of (l : Str) (f : Char → Char) (h : ∀ c ∈ l, f c = c) :
    l.map f = l := by
  induction l with
  | nil => rfl
  | cons a t ih =>
    simp only [List.map_cons, h a (List.mem_cons_self a t)]
    exact congrArg (a :: ·) (ih fun c hc => h c (List.mem_cons_of_mem a hc))

theorem intercalate_five (a b c d e : Str) :
    List.intercalate ['_'] [a, b, c, d, e] =
      a ++ '_' :: (b ++ '_' :: (c ++ '_' :: (d ++ '_' :: e))) := by
  simp [List.intercalate, List.intersperse_cons_cons, List.intersperse_singleton]

theorem not_isEmpty_of_ne_nil (l : Str) (h : l ≠ []) : (!l.isEmpty) = true := by
  cases l with
  | nil => exact absurd rfl h
  | cons a t => rfl

/-- Under sanitised components (nonempty, no underscore, no space, already
lowercase) the fingerprint is just the underscore-join of the raw tuple. -/
theorem generate_race_fingerprint_sanitized (e d n c r : Str)
    (he : e ≠ [] ∧ '_' ∉ e ∧ ' ' ∉ e ∧ strToLower e = e)
    (hd : d ≠ [] ∧ '_' ∉ d ∧ ' ' ∉ d ∧ strToLower d = d)
    (hn : n ≠ [] ∧ '_' ∉ n ∧ ' ' ∉ n ∧ strToLower n = n)
    (hc : c ≠ [] ∧ '_' ∉ c ∧ ' ' ∉ c ∧ strToLower c = c)
    (hr : r ≠ [] ∧ '_' ∉ r ∧ ' ' ∉ r ∧ strToLower r = r) :
    generate_race_fingerprint e d n c r = List.intercalate ['_'] [e, d, n, c, r] := by
  obtain ⟨he1, -, he3, he4⟩ := he
  obtain ⟨hd1, -, -, hd4⟩ := hd
  obtain ⟨hn1, -, -, hn4⟩ := hn
  obtain ⟨hc1, -, -, hc4⟩ := hc
  obtain ⟨hr1, -, -, hr4⟩ := hr
  have hrep : replaceSpaceUnderscore e = e := by
    apply map_eq_self_of
    intro ch hch
    have : ch ≠ ' ' := fun hsp => he3 (hsp ▸ hch)
    simp [this]
  unfold generate_race_fingerprint
  rw [hrep]
  have hfilter :
      ([e, d, n, c, r]).filter (fun comp => !comp.isEmpty) = [e, d, n, c, r] := by
    rw [List.filter_eq_self]
    intro a ha
    simp only [List.mem_cons, List.not_mem_nil, or_false] at ha
    rcases ha with rfl | rfl | rfl | rfl | rfl
    · exact not_isEmpty_of_ne_nil a he1
    · exact not_isEmpty_of_ne_nil a hd1
    · exact not_isEmpty_of_ne_nil a hn1
    · exact not_isEmpty_of_ne_nil a hc1
    · exact not_isEmpty_of_ne_nil a hr1
  rw [hfilter, intercalate_five]
  have hu : Char.toLower '_' = '_' := by decide
  unfold strToLower at he4 hd4 hn4 hc4 hr4 ⊢
  simp only [List.map_append, List.map_cons, he4, hd4, hn4, hc4, hr4, hu]

/-- C1: the race fingerprint is a pure, deterministic function of the five
components, computed exactly as the spec describes: spaces in the event name
become underscores, the five components are joined with `_` separators with
empty components dropped, and the result is lowercased.  Recomputation from
identical inputs therefore always yields the identical string. -/
theorem generate_race_fingerprint_matches_spec (e d n c r : Str) :
    generate_race_fingerprint e d n c r = fingerprint_spec e d n c r := rfl

/-- C2 counterexample: the fingerprint is not injective on the five
components.  Event names `"A"` and `"a"` differ but collide after
lowercasing, and the event name `"a b"` with empty race day collides with
event name `"a"` and race day `"b"` through the space-to-underscore
substitution and the `_` separator. -/
theorem generate_race_fingerprint_collision :
    generate_race_fingerprint ['A'] [] [] [] [] =
        generate_race_fingerprint ['a'] [] [] [] [] ∧
      (['A'] : Str) ≠ ['a'] ∧
      generate_race_fingerprint ['a', ' ', 'b'] [] [] [] [] =
        generate_race_fingerprint ['a'] ['b'] [] [] [] ∧
      ¬((['a', ' ', 'b'] : Str) = ['a'] ∧ ([] : Str) = ['b']) := by
  decide

/-- C2 amended: the fingerprint is injective on sanitised component tuples:
whenever every component of both tuples is nonempty, contains no underscore
and no space, and is already lowercase, equal fingerprints force equal
tuples.  (Unsanitised tuples can collide, e.g. through case-folding or the
space/underscore substitution.) -/
theorem generate_race_fingerprint_injective_sanitized
    (e₁ d₁ n₁ c₁ r₁ e₂ d₂ n₂ c₂ r₂ : Str)
    (h : ∀ s ∈ [e₁, d₁, n₁, c₁, r₁, e₂, d₂, n₂, c₂, r₂],
      s ≠ [] ∧ '_' ∉ s ∧ ' ' ∉ s ∧ strToLower s = s)
    (heq : generate_race_fingerprint e₁ d₁ n₁ c₁ r₁ =
      generate_race_fingerprint e₂ d₂ n₂ c₂ r₂) :
    e₁ = e₂ ∧ d₁ = d₂ ∧ n₁ = n₂ ∧ c₁ = c₂ ∧ r₁ = r₂ := by
  have h1 := h e₁ (by simp)
  have h2 := h d₁ (by simp)
  have h3 := h n₁ (by simp)
  have h4 := h c₁ (by simp)
  have h5 := h r₁ (by simp)
  have h6 := h e₂ (by simp)
  have h7 := h d₂ (by simp)
  have h8 := h n₂ (by simp)
  have h9 := h c₂ (by simp)
  have h10 := h r₂ (by simp)
  rw [generate_race_fingerprint_sanitized e₁ d₁ n₁ c₁ r₁ h1 h2 h3 h4 h5,
    generate_race_fingerprint_sanitized e₂ d₂ n₂ c₂ r₂ h6 h7 h8 h9 h10] at heq
  have hsplit := congrArg (List.splitOn '_') heq
  have hx1 : ∀ l ∈ ([e₁, d₁, n₁, c₁, r₁] : List Str), '_' ∉ l := by
    intro l hl
    simp only [List.mem_cons, List.not_mem_nil, or_false] at hl
    rcases hl with rfl | rfl | rfl | rfl | rfl
    · exact h1.2.1
    · exact h2.2.1
    · exact h3.2.1
    · exact h4.2.1
    · exact h5.2.1
  have hx2 : ∀ l ∈ ([e₂, d₂, n₂, c₂, r₂] : List Str), '_' ∉ l := by
    intro l hl
    simp only [List.mem_cons, List.not_mem_nil, or_false] at hl
    rcases hl with rfl | rfl | rfl | rfl | rfl
    · exact h6.2.1
    · exact h7.2.1
    · exact h8.2.1
    · exact h9.2.1
    · exact h10.2.1
  rw [List.splitOn_intercalate [e₁, d₁, n₁, c₁, r₁] '_' hx1 (by simp),
    List.splitOn_intercalate [e₂, d₂, n₂, c₂, r₂] '_' hx2 (by simp)] at hsplit
  simp only [List.cons.injEq, and_true] at hsplit
  exact ⟨hsplit.1, hsplit.2.1, hsplit.2.2.1, hsplit.2.2.2.1, hsplit.2.2.2.2⟩

/-- Witness for the amended C2 theorem at a concrete sanitised tuple. -/
theorem generate_race_fingerprint_injective_sanitized_witness :
    (∀ s ∈ ([['h'], ['x'], ['y'], ['z'], ['w'],
             ['h'], ['x'], ['y'], ['z'], ['w']] : List Str),
      s ≠ [] ∧ '_' ∉ s ∧ ' ' ∉ s ∧ strToLower s = s) ∧
      ((['h'] : Str) = ['h'] ∧ (['x'] : Str) = ['x'] ∧ (['y'] : Str) = ['y'] ∧
        (['z'] : Str) = ['z'] ∧ (['w'] : Str) = ['w']) :=
  ⟨by decide,
    generate_race_fingerprint_injective_sanitized
      ['h'] ['x'] ['y'] ['z'] ['w'] ['h'] ['x'] ['y'] ['z'] ['w']
      (by decide) rfl⟩

theorem intercalate_two (x : Char) (a b : Str) :
    List.intercalate [x] [a, b] = a ++ x :: b := by
  simp [List.intercalate]

theorem intercalate_one (x : Char) (a : Str) :
    List.intercalate [x] [a] = a := by
  simp [List.intercalate]

theorem splitOn_sep_pair (x : Char) (a b : Str) (ha : x ∉ a) (hb : x ∉ b) :
    List.splitOn x (a ++ x :: b) = [a, b] := by
  have h := List.splitOn_intercalate [a, b] x (by
    intro l hl
    simp only [List.mem_cons, List.not_mem_nil, or_false] at hl
    rcases hl with rfl | rfl
    · exact ha
    · exact hb) (by simp)
  rwa [intercalate_two] at h

theorem splitOn_no_sep (x : Char) (a : Str) (ha : x ∉ a) :
    List.splitOn x a = [a] := by
  have h := List.splitOn_intercalate [a] x (by
    intro l hl
    simp only [List.mem_cons, List.not_mem_nil, or_false] at hl
    rcases hl with rfl
    exact ha) (by simp)
  rwa [intercalate_one] at h

theorem not_mem_of_all_digits (m : Str) (h : ∀ c ∈ m, c.isDigit) (x : Char)
    (hx : x.isDigit = false) : x ∉ m := by
  intro hmem
  have hd := h x hmem
  rw [hx] at hd
  exact Bool.noConfusion hd

theorem parseDigits_all_digits (s : Str) (h1 : s ≠ []) (h2 : ∀ c ∈ s, c.isDigit) :
    parseDigits s = some (digitsVal s) := by
  simp [parseDigits, h1, List.all_eq_true.mpr h2]

theorem pyInt_all_digits (m : Str) (h1 : m ≠ []) (h2 : ∀ c ∈ m, c.isDigit) :
    pyInt m = some ((digitsVal m : Int)) := by
  cases m with
  | nil => exact absurd rfl h1
  | cons c rest =>
    have hc := h2 c (List.mem_cons_self c rest)
    have hcm : c ≠ '-' := by rintro rfl; exact absurd hc (by decide)
    have hcp : c ≠ '+' := by rintro rfl; exact absurd hc (by decide)
    simp [pyInt, hcm, hcp, parseDigits_all_digits (c :: rest) (by simp) h2]

theorem pyFloat_all_digits (s : Str) (h1 : s ≠ []) (h2 : ∀ c ∈ s, c.isDigit) :
    pyFloat s = some ((digitsVal s : ℚ)) := by
  cases s with
  | nil => exact absurd rfl h1
  | cons c rest =>
    have hc := h2 c (List.mem_cons_self c rest)
    have hcm : c ≠ '-' := by rintro rfl; exact absurd hc (by decide)
    have hcp : c ≠ '+' := by rintro rfl; exact absurd hc (by decide)
    have hdot : '.' ∉ c :: rest := not_mem_of_all_digits _ h2 '.' (by decide)
    simp [pyFloat, hcm, hcp, pyFloatBody, splitOn_no_sep '.' _ hdot,
      parseDigits_all_digits (c :: rest) (by simp) h2]

theorem pyFloat_digits_frac (s f : Str) (h1 : s ≠ []) (h2 : ∀ c ∈ s, c.isDigit)
    (_hf1 : f ≠ []) (hf2 : ∀ c ∈ f, c.isDigit) :
    pyFloat (s ++ '.' :: f) =
      some ((digitsVal s : ℚ) + (digitsVal f : ℚ) / (10 : ℚ) ^ f.length) := by
  cases s with
  | nil => exact absurd rfl h1
  | cons c rest =>
    have hc := h2 c (List.mem_cons_self c rest)
    have hcm : c ≠ '-' := by rintro rfl; exact absurd hc (by decide)
    have hcp : c ≠ '+' := by rintro rfl; exact absurd hc (by decide)
    have hsplit : List.splitOn '.' ((c :: rest) ++ '.' :: f) = [c :: rest, f] :=
      splitOn_sep_pair '.' (c :: rest) f
        (not_mem_of_all_digits _ h2 '.' (by decide))
        (not_mem_of_all_digits _ hf2 '.' (by decide))
    have hbody : pyFloatBody ((c :: rest) ++ '.' :: f) =
        some ((digitsVal (c :: rest) : ℚ) + (digitsVal f : ℚ) / (10 : ℚ) ^ f.length) := by
      unfold pyFloatBody
      rw [hsplit]
      simp [List.all_eq_true.mpr h2, List.all_eq_true.mpr hf2]
    have hpf : ∀ t : Str, pyFloat (c :: t) = pyFloatBody (c :: t) := by
      intro t
      simp [pyFloat, hcm, hcp]
    rw [List.cons_append, hpf, ← List.cons_append, hbody]

theorem ratTrunc_nonneg (q : ℚ) (h : 0 ≤ q) : 0 ≤ ratTrunc q := by
  unfold ratTrunc
  rw [if_neg (not_lt.mpr h)]
  exact Rat.le_floor.mpr (by exact_mod_cast h)

theorem ratFloor_eq_intFloor (q : ℚ) : Rat.floor q = ⌊q⌋ := by
  rw [Rat.floor_def', Rat.floor_def]

theorem ratTrunc_intCast (n : Int) : ratTrunc ((n : ℚ)) = n := by
  unfold ratTrunc
  simp only [ratFloor_eq_intFloor]
  split
  · rw [← Int.cast_neg, Int.floor_intCast]
    exact neg_neg n
  · exact Int.floor_intCast n

theorem toNat_sub_le_nine_of_isDigit (c : Char) (h : c.isDigit = true) :
    c.toNat - 48 ≤ 9 := by
  have h2 : c.toNat ≤ 57 := by
    simp [Char.isDigit] at h
    exact h.2
  omega

theorem foldl_digits_lt (s : Str) (h : ∀ c ∈ s, c.isDigit) (a : Nat) :
    s.foldl (fun n c => 10 * n + (c.toNat - 48)) a < (a + 1) * 10 ^ s.length := by
  induction s generalizing a with
  | nil => simpa using Nat.lt_succ_self a
  | cons c t ih =>
    have hd : c.toNat - 48 ≤ 9 :=
      toNat_sub_le_nine_of_isDigit c (h c (List.mem_cons_self c t))
    have ht := ih (fun x hx => h x (List.mem_cons_of_mem c hx)) (10 * a + (c.toNat - 48))
    calc List.foldl (fun n ch => 10 * n + (ch.toNat - 48)) a (c :: t)
        = List.foldl (fun n ch => 10 * n + (ch.toNat - 48)) (10 * a + (c.toNat - 48)) t := rfl
      _ < (10 * a + (c.toNat - 48) + 1) * 10 ^ t.length := ht
      _ ≤ ((a + 1) * 10) * 10 ^ t.length := by
          apply Nat.mul_le_mul_right
          omega
      _ = (a + 1) * 10 ^ (c :: t).length := by
          rw [List.length_cons, pow_succ]
          ring

theorem digitsVal_lt_pow (s : Str) (h : ∀ c ∈ s, c.isDigit) :
    digitsVal s < 10 ^ s.length := by
  have h0 := foldl_digits_lt s h 0
  norm_num at h0
  exact h0

theorem ten_pow_106_lt_floatOverflowBound : (10 : ℚ) ^ 106 < floatOverflowBound := by
  have h1 : (10 : ℚ) ^ 106 < 16 ^ 106 := by
    gcongr <;> norm_num
  have h2 : (16 : ℚ) ^ 106 = 2 ^ 424 := by
    rw [show (16 : ℚ) = 2 ^ 4 by norm_num, ← pow_mul]
  have h3 : (2 : ℚ) ^ 424 ≤ 2 ^ 1023 := by
    gcongr <;> norm_num
  have h4 : (2 : ℚ) ^ 1023 ≤ 2 ^ 1024 - 2 ^ 970 := by
    have h5 : (2 : ℚ) ^ 970 ≤ 2 ^ 1023 := by
      gcongr <;> norm_num
    have h6 : (2 : ℚ) ^ 1024 = 2 ^ 1023 * 2 := by rw [← pow_succ]
    linarith
  calc (10 : ℚ) ^ 106 < 16 ^ 106 := h1
    _ = 2 ^ 424 := h2
    _ ≤ 2 ^ 1023 := h3
    _ ≤ floatOverflowBound := h4

theorem floatOverflowBound_le_ten_pow_399 : floatOverflowBound ≤ (10 : ℚ) ^ 399 := by
  have h1 : floatOverflowBound ≤ (2 : ℚ) ^ 1024 := by
    have h0 : (0 : ℚ) ≤ 2 ^ 970 := by positivity
    show (2 : ℚ) ^ 1024 - 2 ^ 970 ≤ 2 ^ 1024
    linarith
  have h2 : (2 : ℚ) ^ 1024 = 65536 ^ 64 := by
    rw [show (65536 : ℚ) = 2 ^ 16 by norm_num, ← pow_mul]
  have h3 : (65536 : ℚ) ^ 64 ≤ 100000 ^ 64 := by
    gcongr <;> norm_num
  have h4 : (100000 : ℚ) ^ 64 = 10 ^ 320 := by
    rw [show (100000 : ℚ) = 10 ^ 5 by norm_num, ← pow_mul]
  have h5 : (10 : ℚ) ^ 320 ≤ 10 ^ 399 := by
    gcongr <;> norm_num
  calc floatOverflowBound ≤ 2 ^ 1024 := h1
    _ = 65536 ^ 64 := h2
    _ ≤ 100000 ^ 64 := h3
    _ = 10 ^ 320 := h4
    _ ≤ 10 ^ 399 := h5

theorem abs_lt_floatOverflowBound (x : ℚ) (h0 : 0 ≤ x) (h : x < 10 ^ 106) :
    |x| < floatOverflowBound := by
  rw [abs_of_nonneg h0]
  exact lt_trans h ten_pow_106_lt_floatOverflowBound

theorem abs_small_lt_floatOverflowBound (x : ℚ) (h : |x| < 10 ^ 106) :
    |x| < floatOverflowBound :=
  lt_trans h ten_pow_106_lt_floatOverflowBound

/-- Evaluation of `convert_time_to_ms` on an input that splits as
`mstr:sfull` with both component conversions succeeding and every step of
the float pipeline in range. -/
theorem convert_time_to_ms_split_eval (mstr sfull : Str) (mi : Int) (q : ℚ)
    (hmi : pyInt mstr = some mi) (hq : pyFloat sfull = some q)
    (hxm : ':' ∉ mstr) (hx : ':' ∉ sfull)
    (hb : |(mi : ℚ) * 60| < floatOverflowBound ∧ |q| < floatOverflowBound ∧
      |(mi : ℚ) * 60 + q| < floatOverflowBound ∧
      |((mi : ℚ) * 60 + q) * 1000| < floatOverflowBound) :
    convert_time_to_ms (mstr ++ ':' :: sfull) =
      some (ratTrunc (((mi : ℚ) * 60 + q) * 1000)) := by
  have hsplit : List.splitOn ':' (mstr ++ ':' :: sfull) = [mstr, sfull] :=
    splitOn_sep_pair ':' mstr sfull hxm hx
  have hno : ¬(|(mi : ℚ) * 60| ≥ floatOverflowBound ∨ |q| ≥ floatOverflowBound ∨
      |(mi : ℚ) * 60 + q| ≥ floatOverflowBound ∨
      |((mi : ℚ) * 60 + q) * 1000| ≥ floatOverflowBound) := by
    push_neg
    exact ⟨hb.1, hb.2.1, hb.2.2.1, hb.2.2.2⟩
  unfold convert_time_to_ms
  rw [if_neg (by simp), hsplit]
  show (Option.bind (pyInt mstr) fun mi =>
    Option.bind (pyFloat sfull) fun sv =>
      if |(mi : ℚ) * 60| ≥ floatOverflowBound ∨ |sv| ≥ floatOverflowBound ∨
          |(mi : ℚ) * 60 + sv| ≥ floatOverflowBound ∨
          |((mi : ℚ) * 60 + sv) * 1000| ≥ floatOverflowBound then none
      else some (ratTrunc (((mi : ℚ) * 60 + sv) * 1000))) = _
  rw [hmi, hq]
  show (if |(mi : ℚ) * 60| ≥ floatOverflowBound ∨ |q| ≥ floatOverflowBound ∨
      |(mi : ℚ) * 60 + q| ≥ floatOverflowBound ∨
      |((mi : ℚ) * 60 + q) * 1000| ≥ floatOverflowBound then none
    else some (ratTrunc (((mi : ℚ) * 60 + q) * 1000))) = _
  rw [if_neg hno]

/-- Evaluation of `convert_time_to_ms` when some step of the float pipeline
overflows: the raised `OverflowError` is caught and the result is `none`. -/
theorem convert_time_to_ms_split_overflow (mstr sfull : Str) (mi : Int) (q : ℚ)
    (hmi : pyInt mstr = some mi) (hq : pyFloat sfull = some q)
    (hxm : ':' ∉ mstr) (hx : ':' ∉ sfull)
    (hover : |(mi : ℚ) * 60| ≥ floatOverflowBound ∨ |q| ≥ floatOverflowBound ∨
      |(mi : ℚ) * 60 + q| ≥ floatOverflowBound ∨
      |((mi : ℚ) * 60 + q) * 1000| ≥ floatOverflowBound) :
    convert_time_to_ms (mstr ++ ':' :: sfull) = none := by
  have hsplit : List.splitOn ':' (mstr ++ ':' :: sfull) = [mstr, sfull] :=
    splitOn_sep_pair ':' mstr sfull hxm hx
  unfold convert_time_to_ms
  rw [if_neg (by simp), hsplit]
  show (Option.bind (pyInt mstr) fun mi =>
    Option.bind (pyFloat sfull) fun sv =>
      if |(mi : ℚ) * 60| ≥ floatOverflowBound ∨ |sv| ≥ floatOverflowBound ∨
          |(mi : ℚ) * 60 + sv| ≥ floatOverflowBound ∨
          |((mi : ℚ) * 60 + sv) * 1000| ≥ floatOverflowBound then none
      else some (ratTrunc (((mi : ℚ) * 60 + sv) * 1000))) = _
  rw [hmi, hq]
  show (if |(mi : ℚ) * 60| ≥ floatOverflowBound ∨ |q| ≥ floatOverflowBound ∨
      |(mi : ℚ) * 60 + q| ≥ floatOverflowBound ∨
      |((mi : ℚ) * 60 + q) * 1000| ≥ floatOverflowBound then none
    else some (ratTrunc (((mi : ℚ) * 60 + q) * 1000))) = _
  rw [if_pos hover]

theorem convert_example_frac :
    convert_time_to_ms ['1', ':', '2', '3', '.', '4', '5'] = some 83450 := by
  have e1 : digitsVal ['2', '3'] = 23 := by decide
  have e2 : digitsVal ['4', '5'] = 45 := by decide
  have e3 : (['4', '5'] : Str).length = 2 := by decide
  have h1 : pyInt ['1'] = some 1 := by decide
  have h2 := pyFloat_digits_frac ['2', '3'] ['4', '5']
    (by decide) (by decide) (by decide) (by decide)
  rw [e1, e2, e3] at h2
  have hb : |((1 : Int) : ℚ) * 60| < floatOverflowBound ∧
      |((23 : ℕ) : ℚ) + ((45 : ℕ) : ℚ) / (10 : ℚ) ^ 2| < floatOverflowBound ∧
      |((1 : Int) : ℚ) * 60 + (((23 : ℕ) : ℚ) + ((45 : ℕ) : ℚ) / (10 : ℚ) ^ 2)| <
        floatOverflowBound ∧
      |(((1 : Int) : ℚ) * 60 + (((23 : ℕ) : ℚ) + ((45 : ℕ) : ℚ) / (10 : ℚ) ^ 2)) * 1000| <
        floatOverflowBound := by
    refine ⟨?_, ?_, ?_, ?_⟩ <;>
      · apply abs_small_lt_floatOverflowBound
        rw [abs_lt]
        constructor <;> (push_cast; norm_num)
  have h := convert_time_to_ms_split_eval ['1'] ['2', '3', '.', '4', '5'] 1
    (((23 : ℕ) : ℚ) + ((45 : ℕ) : ℚ) / (10 : ℚ) ^ 2) h1 h2 (by decide) (by decide) hb
  have hval : ((((1 : Int) : ℚ) * 60 +
      (((23 : ℕ) : ℚ) + ((45 : ℕ) : ℚ) / (10 : ℚ) ^ 2)) * 1000) = ((83450 : Int) : ℚ) := by
    push_cast
    norm_num
  rw [show (['1', ':', '2', '3', '.', '4', '5'] : Str) =
    ['1'] ++ ':' :: ['2', '3', '.', '4', '5'] from rfl, h, hval, ratTrunc_intCast]

theorem convert_example_neg :
    convert_time_to_ms ['-', '2', ':', '3', '0'] = some (-90000) := by
  have e1 : digitsVal ['3', '0'] = 30 := by decide
  have h1 : pyInt ['-', '2'] = some (-2) := by decide
  have h2 := pyFloat_all_digits ['3', '0'] (by decide) (by decide)
  rw [e1] at h2
  have hb : |((-2 : Int) : ℚ) * 60| < floatOverflowBound ∧
      |((30 : ℕ) : ℚ)| < floatOverflowBound ∧
      |((-2 : Int) : ℚ) * 60 + ((30 : ℕ) : ℚ)| < floatOverflowBound ∧
      |(((-2 : Int) : ℚ) * 60 + ((30 : ℕ) : ℚ)) * 1000| < floatOverflowBound := by
    refine ⟨?_, ?_, ?_, ?_⟩ <;>
      · apply abs_small_lt_floatOverflowBound
        rw [abs_lt]
        constructor <;> (push_cast; norm_num)
  have h := convert_time_to_ms_split_eval ['-', '2'] ['3', '0'] (-2)
    (((30 : ℕ) : ℚ)) h1 h2 (by decide) (by decide) hb
  have hval : ((((-2 : Int) : ℚ) * 60 + ((30 : ℕ) : ℚ)) * 1000) = ((-90000 : Int) : ℚ) := by
    push_cast
    norm_num
  rw [show (['-', '2', ':', '3', '0'] : Str) = ['-', '2'] ++ ':' :: ['3', '0'] from rfl,
    h, hval, ratTrunc_intCast]

set_option maxRecDepth 8000 in
theorem convert_example_overflow :
    convert_time_to_ms ('1' :: ':' :: List.replicate 400 '9') = none := by
  have hdig : ∀ c ∈ List.replicate 400 '9', c.isDigit = true := by
    intro c hc
    rw [List.eq_of_mem_replicate hc]
    decide
  have hne : (List.replicate 400 '9' : Str) ≠ [] := by decide
  have h1 : pyInt ['1'] = some 1 := by decide
  have hq := pyFloat_all_digits (List.replicate 400 '9') hne hdig
  have hlow : (10 : ℕ) ^ 399 ≤ digitsVal (List.replicate 400 '9') := by decide
  have hover : |((digitsVal (List.replicate 400 '9') : ℕ) : ℚ)| ≥ floatOverflowBound := by
    rw [abs_of_nonneg (by positivity)]
    calc floatOverflowBound ≤ (10 : ℚ) ^ 399 := floatOverflowBound_le_ten_pow_399
      _ ≤ _ := by exact_mod_cast hlow
  exact convert_time_to_ms_split_overflow ['1'] (List.replicate 400 '9') 1
    ((digitsVal (List.replicate 400 '9') : ℕ) : ℚ) h1 hq (by decide)
    (not_mem_of_all_digits _ hdig ':' (by decide))
    (Or.inr (Or.inl hover))

set_option maxRecDepth 8000 in
/-- When every component stays within at most 100 digits — far inside the
double range — the conversion accepts and is non-negative. -/
theorem convert_accept_core (m sfull : Str) (q : ℚ)
    (hm1 : m ≠ []) (hm2 : ∀ c ∈ m, c.isDigit) (hm100 : m.length ≤ 100)
    (hq : pyFloat sfull = some q) (hx : ':' ∉ sfull)
    (hq0 : 0 ≤ q) (hqb : q < 10 ^ 101) :
    ∃ v : Int, convert_time_to_ms (m ++ ':' :: sfull) = some v ∧ 0 ≤ v := by
  have hdmn : digitsVal m < 10 ^ 100 :=
    lt_of_lt_of_le (digitsVal_lt_pow m hm2) (Nat.pow_le_pow_right (by norm_num) hm100)
  have hdm : ((digitsVal m : Int) : ℚ) < 10 ^ 100 := by
    push_cast
    exact_mod_cast hdmn
  have hdm0 : (0 : ℚ) ≤ ((digitsVal m : Int) : ℚ) := by push_cast; positivity
  have h600 : (0 : ℚ) ≤ ((digitsVal m : Int) : ℚ) * 60 := mul_nonneg hdm0 (by norm_num)
  have h60 : ((digitsVal m : Int) : ℚ) * 60 < 10 ^ 100 * 60 :=
    mul_lt_mul_of_pos_right hdm (by norm_num)
  have hsum0 : (0 : ℚ) ≤ ((digitsVal m : Int) : ℚ) * 60 + q := add_nonneg h600 hq0
  have hsum : ((digitsVal m : Int) : ℚ) * 60 + q < 10 ^ 100 * 60 + 10 ^ 101 :=
    add_lt_add h60 hqb
  have hprod0 : (0 : ℚ) ≤ (((digitsVal m : Int) : ℚ) * 60 + q) * 1000 :=
    mul_nonneg hsum0 (by norm_num)
  have hprod : (((digitsVal m : Int) : ℚ) * 60 + q) * 1000 <
      (10 ^ 100 * 60 + 10 ^ 101) * 1000 :=
    mul_lt_mul_of_pos_right hsum (by norm_num)
  refine ⟨_, convert_time_to_ms_split_eval m sfull (digitsVal m : Int) q
    (pyInt_all_digits m hm1 hm2) hq
    (not_mem_of_all_digits m hm2 ':' (by decide)) hx
    ⟨abs_lt_floatOverflowBound _ h600 (lt_trans h60 (by norm_num)),
     abs_lt_floatOverflowBound _ hq0 (lt_trans hqb (by norm_num)),
     abs_lt_floatOverflowBound _ hsum0 (lt_trans hsum (by norm_num)),
     abs_lt_floatOverflowBound _ hprod0 (lt_trans hprod (by norm_num))⟩, ?_⟩
  exact ratTrunc_nonneg _ hprod0

set_option maxRecDepth 8000 in
/-- C6 amended: every `MM:SS` and `MM:SS.mmm` digit-shaped duration whose
fields are at most 100 digits long — far inside the double range — is
accepted and produces a non-negative millisecond count, and `"1:23.45"`
produces `83450`; but the parser does not reject every other shape:
components may carry signs, so `"-2:30"` is also accepted and produces the
negative value `-90000`; and digit fields long enough to overflow the
float pipeline (here 400 nines) are refused with the unparseable signal. -/
theorem convert_time_to_ms_accepts_mmss_and_signed :
    (∀ m s : Str, ∀ f : Option Str,
        m ≠ [] → (∀ c ∈ m, c.isDigit) → m.length ≤ 100 →
        s ≠ [] → (∀ c ∈ s, c.isDigit) → s.length ≤ 100 →
        (∀ fr, f = some fr → fr ≠ [] ∧ (∀ c ∈ fr, c.isDigit) ∧ fr.length ≤ 100) →
        ∃ v : Int,
          convert_time_to_ms
            (m ++ ':' :: (s ++ match f with | some fr => '.' :: fr | none => [])) =
              some v ∧ 0 ≤ v) ∧
      convert_time_to_ms ['1', ':', '2', '3', '.', '4', '5'] = some 83450 ∧
      convert_time_to_ms ['-', '2', ':', '3', '0'] = some (-90000) ∧
      convert_time_to_ms ('1' :: ':' :: List.replicate 400 '9') = none := by
  refine ⟨?_, convert_example_frac, convert_example_neg, convert_example_overflow⟩
  intro m s f hm1 hm2 hm100 hs1 hs2 hs100 hf
  have hds : (digitsVal s : ℚ) < 10 ^ 100 := by
    exact_mod_cast lt_of_lt_of_le (digitsVal_lt_pow s hs2)
      (Nat.pow_le_pow_right (by norm_num) hs100)
  cases f with
  | none =>
    have hxs : ':' ∉ s ++ ([] : Str) := by
      rw [List.append_nil]
      exact not_mem_of_all_digits s hs2 ':' (by decide)
    exact convert_accept_core m (s ++ []) ((digitsVal s : ℚ)) hm1 hm2 hm100
      (by rw [List.append_nil]; exact pyFloat_all_digits s hs1 hs2) hxs
      (by positivity) (lt_trans hds (by norm_num))
  | some fr =>
    obtain ⟨hfr1, hfr2, -⟩ := hf fr rfl
    have hxs : ':' ∉ s ++ '.' :: fr := by
      intro hmem
      rcases List.mem_append.mp hmem with h | h
      · exact not_mem_of_all_digits s hs2 ':' (by decide) h
      · rcases List.mem_cons.mp h with h | h
        · exact absurd h (by decide)
        · exact not_mem_of_all_digits fr hfr2 ':' (by decide) h
    have hfrac : (digitsVal fr : ℚ) / (10 : ℚ) ^ fr.length < 1 := by
      rw [div_lt_one (by positivity)]
      have h1 : digitsVal fr < 10 ^ fr.length := digitsVal_lt_pow fr hfr2
      exact_mod_cast h1
    have hqb : (digitsVal s : ℚ) + (digitsVal fr : ℚ) / (10 : ℚ) ^ fr.length <
        10 ^ 101 := by
      have h2 : (digitsVal s : ℚ) + (digitsVal fr : ℚ) / (10 : ℚ) ^ fr.length <
          10 ^ 100 + 1 := add_lt_add hds hfrac
      calc (digitsVal s : ℚ) + (digitsVal fr : ℚ) / (10 : ℚ) ^ fr.length
          < 10 ^ 100 + 1 := h2
        _ < 10 ^ 101 := by norm_num
    exact convert_accept_core m (s ++ '.' :: fr)
      ((digitsVal s : ℚ) + (digitsVal fr : ℚ) / (10 : ℚ) ^ fr.length) hm1 hm2 hm100
      (pyFloat_digits_frac s fr hs1 hs2 hfr1 hfr2) hxs (by positivity) hqb

/-- Witness for the amended duration theorem at the concrete input `"1:2"`. -/
theorem convert_time_to_ms_accepts_mmss_and_signed_witness :
    ((['1'] : Str) ≠ [] ∧ (∀ c ∈ (['1'] : Str), c.isDigit) ∧
      (['1'] : Str).length ≤ 100 ∧
      (['2'] : Str) ≠ [] ∧ (∀ c ∈ (['2'] : Str), c.isDigit) ∧
      (['2'] : Str).length ≤ 100) ∧
      ∃ v : Int, convert_time_to_ms (['1'] ++ ':' :: (['2'] ++ [])) = some v ∧ 0 ≤ v :=
  ⟨by decide,
    convert_time_to_ms_accepts_mmss_and_signed.1 ['1'] ['2'] none
      (by decide) (by decide) (by decide) (by decide) (by decide) (by decide)
      (fun fr h => nomatch h)⟩

/-- C6 counterexample: `"-2:30"` is not of shape `MM:SS` or `MM:SS.mmm`, yet
the parser accepts it, and its output is negative rather than non-negative. -/
theorem convert_time_to_ms_accepts_negative :
    convert_time_to_ms ['-', '2', ':', '3', '0'] = some (-90000) ∧
      (-90000 : Int) < 0 :=
  ⟨convert_example_neg, by decide⟩

/-- C7 counterexample: `parse_date` takes no reference-year input; it reads
the year from the ambient wall clock, so the very same `"12/8"` input yields
different outputs under different wall-clock years. -/
theorem parse_date_wall_clock_dependent :
    parse_date 2024 ['1', '2', '/', '8'] =
        some ['2', '0', '2', '4', '-', '1', '2', '-', '0', '8'] ∧
      parse_date 2025 ['1', '2', '/', '8'] =
        some ['2', '0', '2', '5', '-', '1', '2', '-', '0', '8'] ∧
      parse_date 2024 ['1', '2', '/', '8'] ≠ parse_date 2025 ['1', '2', '/', '8'] := by
  decide

/-- C7 amended: the year combined with an `M/D` input is the ambient
wall-clock year, not an explicit reference-year input; for any fixed
wall-clock year `y`, `"12/8"` deterministically yields the zero-padded ISO
string `y-12-08` (so `"2024-12-08"` when the wall clock reads 2024). -/
theorem parse_date_fixed_year (y : Nat) :
    parse_date y ['1', '2', '/', '8'] =
      some (natToStr y ++ ['-', '1', '2', '-', '0', '8']) := rfl

/-- C3 counterexample: when a matching row already exists,
`get_or_create_competitor` and `get_or_create_category` return the existing
id and leave the store unchanged — the stored payload (here `name_short`
resp. `title`) is not overwritten even though the incoming payload
differs. -/
theorem get_or_create_no_overwrite :
    get_or_create_competitor [⟨7, some ['x'], some ['o'], none, none⟩] 8
        ⟨some ['x'], some ['n'], none, none⟩ =
      (some 7, [⟨7, some ['x'], some ['o'], none, none⟩], 8) ∧
      (some ['o'] : Option Str) ≠ some ['n'] ∧
      get_or_create_category [⟨3, some ['c'], some ['t'], none, none⟩] 4
          ⟨some ['c'], some ['u'], none⟩ none =
        (some 3, [⟨3, some ['c'], some ['t'], none, none⟩], 4) ∧
      (some ['t'] : Option Str) ≠ some ['u'] := by
  decide

/-- C3 amended: on a natural-key match, `upsert_event` overwrites the found
row with the full current payload and returns its id (and the race/result
upserts behave likewise), but `get_or_create_competitor` and
`get_or_create_category` only return the existing id: the store is left
unchanged, and creation happens only when no row matches. -/
theorem resolve_found_semantics :
    (∀ (rows : List EventRow) (nextId : Nat) (data : EventData) (nm sd : Str)
        (r : EventRow),
      data.name = some nm → nm ≠ [] → data.start_date = some sd → sd ≠ [] →
      rows.find? (fun row => row.name == some nm && row.start_date == some sd) =
        some r →
      upsert_event rows nextId data =
        (some r.id,
          rows.map (fun row =>
            if row.id == r.id then eventPayload r.id data nm sd else row),
          nextId)) ∧
    (∀ (rows : List CompetitorRow) (nextId : Nat) (data : CompetitorData)
        (nl : Str) (r : CompetitorRow),
      data.name_long = some nl → nl ≠ [] →
      rows.find? (competitorMatches nl data.designation) = some r →
      get_or_create_competitor rows nextId data = (some r.id, rows, nextId)) ∧
    (∀ (rows : List CategoryRow) (nextId : Nat) (data : CategoryData)
        (ab : Option Str) (nm : Str) (r : CategoryRow),
      data.name = some nm → nm ≠ [] →
      rows.find? (fun row => row.name == some nm) = some r →
      get_or_create_category rows nextId data ab = (some r.id, rows, nextId)) := by
  refine ⟨?_, ?_, ?_⟩
  · intro rows nextId data nm sd r h1 h2 h3 h4 hfind
    simp [upsert_event, h1, h3, truthyStr, not_isEmpty_of_ne_nil nm h2,
      not_isEmpty_of_ne_nil sd h4, hfind]
  · intro rows nextId data nl r h1 h2 hfind
    simp [get_or_create_competitor, h1, truthyStr, not_isEmpty_of_ne_nil nl h2, hfind]
  · intro rows nextId data ab nm r h1 h2 hfind
    simp [get_or_create_category, h1, truthyStr, not_isEmpty_of_ne_nil nm h2, hfind]

/-- Witness for the amended C3 theorem at concrete one-row stores. -/
theorem resolve_found_semantics_witness :
    (List.find? (competitorMatches ['a'] none)
        [⟨1, some ['a'], none, none, none⟩] = some ⟨1, some ['a'], none, none, none⟩) ∧
      get_or_create_competitor [⟨1, some ['a'], none, none, none⟩] 2
          ⟨some ['a'], none, none, none⟩ =
        (some 1, [⟨1, some ['a'], none, none, none⟩], 2) ∧
      get_or_create_category [⟨1, some ['c'], none, none, none⟩] 2
          ⟨some ['c'], none, none⟩ none =
        (some 1, [⟨1, some ['c'], none, none, none⟩], 2) :=
  ⟨by decide,
    resolve_found_semantics.2.1 [⟨1, some ['a'], none, none, none⟩] 2
      ⟨some ['a'], none, none, none⟩ ['a'] ⟨1, some ['a'], none, none, none⟩
      rfl (by decide) (by decide),
    resolve_found_semantics.2.2 [⟨1, some ['c'], none, none, none⟩] 2
      ⟨some ['c'], none, none⟩ none ['c'] ⟨1, some ['c'], none, none, none⟩
      rfl (by decide) (by decide)⟩

/-- C4 counterexample: a lookup with an empty-string designation issues the
very same null-designation query as a lookup with `None` — both match a
stored row whose designation is null, so the empty string is not a distinct
identity from null. -/
theorem competitor_empty_designation_same_as_null :
    get_or_create_competitor [⟨5, some ['x'], none, none, none⟩] 9
        ⟨some ['x'], none, some [], none⟩ =
      (some 5, [⟨5, some ['x'], none, none, none⟩], 9) ∧
      get_or_create_competitor [⟨5, some ['x'], none, none, none⟩] 9
          ⟨some ['x'], none, none, none⟩ =
        (some 5, [⟨5, some ['x'], none, none, none⟩], 9) ∧
      (⟨5, some ['x'], none, none, none⟩ : CompetitorRow).designation = none := by
  decide

/-- C4 amended: a lookup with designation `None` matches only rows whose
designation is null, and a lookup with a non-empty designation matches only
rows holding exactly that designation; but the empty-string designation is
not a third identity: it is falsy, so its lookup is identical to the `None`
lookup. -/
theorem competitor_lookup_designation_semantics :
    (∀ (nl : Str) (r : CompetitorRow),
      competitorMatches nl none r = true → r.designation = none) ∧
    (∀ (nl d : Str) (r : CompetitorRow), d ≠ [] →
      competitorMatches nl (some d) r = true → r.designation = some d) ∧
    (∀ (nl : Str) (r : CompetitorRow),
      competitorMatches nl (some []) r = competitorMatches nl none r) := by
  refine ⟨?_, ?_, ?_⟩
  · intro nl r h
    simp [competitorMatches, truthyStr] at h
    exact h.2
  · intro nl d r hd h
    simp [competitorMatches, truthyStr, not_isEmpty_of_ne_nil d hd] at h
    exact h.2
  · intro nl r
    rfl

/-- Witness for the amended C4 theorem at a concrete row. -/
theorem competitor_lookup_designation_semantics_witness :
    ((['d'] : Str) ≠ [] ∧
        competitorMatches ['x'] (some ['d'])
          ⟨5, some ['x'], none, some ['d'], none⟩ = true) ∧
      (⟨5, some ['x'], none, some ['d'], none⟩ : CompetitorRow).designation =
        some ['d'] :=
  ⟨by decide,
    competitor_lookup_designation_semantics.2.1 ['x'] ['d']
      ⟨5, some ['x'], none, some ['d'], none⟩ (by decide) (by decide)⟩

/-- C5: a poll tick whose fetched payload hashes to the recorded baseline
hash skips synchronisation entirely: whatever writes `process` would
perform, the store and the baseline are returned unchanged. -/
theorem poll_tick_skip_on_unchanged_hash {Payload Store : Type}
    (hashFn : Payload → Str) (process : Payload → Store → Store)
    (d : Payload) (lastHash : Option Str) (store : Store)
    (h : some (hashFn d) = lastHash) :
    poll_tick hashFn process (some d) lastHash store = (lastHash, store) := by
  simp [poll_tick, h]

/-- Witness for the hash-skip theorem with a store-mutating `process`. -/
theorem poll_tick_skip_on_unchanged_hash_witness :
    (some (['h'] : Str) = some ['h']) ∧
      poll_tick (fun _ : Nat => (['h'] : Str)) (fun _ s => s + 1)
          (some 3) (some ['h']) 0 =
        (some ['h'], 0) :=
  ⟨rfl, poll_tick_skip_on_unchanged_hash (fun _ : Nat => (['h'] : Str))
    (fun _ s => s + 1) 3 (some ['h']) 0 rfl⟩

/-- C8 counterexample: a present but non-numeric placement (here `"DNF"`)
makes the `int(...)` conversion raise out of the result-payload
preparation: the enclosing processing aborts instead of substituting an
absent value. -/
theorem prepare_result_data_raises_on_bad_placement :
    prepare_result_data 1
        ⟨some ['D', 'N', 'F'], some ['1'], none, none, none, none, none,
          none, none, none⟩ =
      Except.error () := rfl

/-- C8 amended: the per-field parsers return the unparseable signal (never
an error) on empty or absent input, and the result-payload preparation
recovers malformed time and date fields by substituting an absent value;
but a present, non-integer placement raises out of it. -/
theorem field_parsers_total_and_prepare_ok :
    (convert_time_to_ms [] = none ∧ parse_race_time [] = none ∧
      format_race_time [] = none ∧ ∀ y : Nat, parse_date y [] = none) ∧
    (∀ (cid : Nat) (r : RawResult),
      r.placement = none ∨ r.placement = some [] ∨
        (∃ v, pyInt (r.placement.getD []) = some v) →
      ∃ d, prepare_result_data cid r = Except.ok d) := by
  refine ⟨⟨rfl, rfl, rfl, fun y => rfl⟩, ?_⟩
  intro cid r h
  have hstep : ∃ pl, placementStep r = Except.ok pl := by
    rcases h with h | h | ⟨v, hv⟩
    · refine ⟨none, ?_⟩
      simp only [placementStep, h, truthyStr]
      rfl
    · refine ⟨none, ?_⟩
      simp only [placementStep, h, truthyStr]
      rfl
    · cases hp : r.placement with
      | none => rw [hp] at hv; simp [pyInt] at hv
      | some p =>
        cases hq : p with
        | nil => rw [hp, hq] at hv; simp [pyInt] at hv
        | cons c rest =>
          refine ⟨some v, ?_⟩
          have ht : truthyStr r.placement = true := by rw [hp, hq]; rfl
          simp only [placementStep, ht, if_true, hv]
          rfl
  obtain ⟨pl, hpl⟩ := hstep
  refine ⟨⟨cid, pl, r.lane_boat_number, format_race_time (r.start_time.getD []),
    format_race_time (r.finish_time.getD []), format_race_time (r.raw_time.getD []),
    convert_time_to_ms (r.total_time.getD []), r.adjustment, r.handicap,
    r.remark, r.notes⟩, ?_⟩
  unfold prepare_result_data
  rw [hpl]
  rfl

/-- Witness for the C8 theorem: an absent placement prepares fine even with
every time field absent. -/
theorem field_parsers_total_and_prepare_ok_witness :
    ((⟨none, some ['1'], none, none, none, none, none, none, none,
        none⟩ : RawResult).placement = none ∨
      (⟨none, some ['1'], none, none, none, none, none, none, none,
        none⟩ : RawResult).placement = some [] ∨
      (∃ v, pyInt ((⟨none, some ['1'], none, none, none, none, none, none,
        none, none⟩ : RawResult).placement.getD []) = some v)) ∧
      ∃ d, prepare_result_data 7
          ⟨none, some ['1'], none, none, none, none, none, none, none, none⟩ =
        Except.ok d :=
  ⟨Or.inl rfl,
    field_parsers_total_and_prepare_ok.2 7
      ⟨none, some ['1'], none, none, none, none, none, none, none, none⟩
      (Or.inl rfl)⟩

/-- C10: every `None`-valued field is absent from the prepared result
payload, and a store update with that payload writes only the present
columns: on an update, any column whose incoming value was absent or
unparseable keeps its previously stored value.  The last conjunct ties the
two: a result that prepared successfully with an unparseable `total_time`
has no `total_time` key in its payload. -/
theorem upsert_result_preserves_absent_columns :
    (∀ (rows : List ResultRow) (nextId : Nat) (p : ResultData) (sid : Nat)
        (lane : Str) (r : ResultRow),
      p.lane_boat_number = some lane → lane ≠ [] →
      rows.find? (fun row =>
        row.schedule_id == sid && row.lane_boat_number == lane) = some r →
      upsert_result rows nextId p sid =
        (some r.id,
          rows.map (fun row =>
            if row.id == r.id then applyResultUpdate r p sid else row),
          nextId)) ∧
    (∀ (row : ResultRow) (p : ResultData) (sid : Nat),
      (p.placement = none → (applyResultUpdate row p sid).placement = row.placement) ∧
      (p.start_time = none → (applyResultUpdate row p sid).start_time = row.start_time) ∧
      (p.finish_time = none → (applyResultUpdate row p sid).finish_time = row.finish_time) ∧
      (p.raw_time = none → (applyResultUpdate row p sid).raw_time = row.raw_time) ∧
      (p.total_time = none → (applyResultUpdate row p sid).total_time = row.total_time) ∧
      (p.adjustment = none → (applyResultUpdate row p sid).adjustment = row.adjustment) ∧
      (p.handicap = none → (applyResultUpdate row p sid).handicap = row.handicap) ∧
      (p.remark = none → (applyResultUpdate row p sid).remark = row.remark) ∧
      (p.notes = none → (applyResultUpdate row p sid).notes = row.notes)) ∧
    (∀ (cid : Nat) (r : RawResult) (d : ResultData),
      prepare_result_data cid r = Except.ok d →
      convert_time_to_ms (r.total_time.getD []) = none → d.total_time = none) := by
  refine ⟨?_, ?_, ?_⟩
  · intro rows nextId p sid lane r h1 h2 hfind
    simp [upsert_result, h1, truthyStr, not_isEmpty_of_ne_nil lane h2, hfind]
  · intro row p sid
    refine ⟨?_, ?_, ?_, ?_, ?_, ?_, ?_, ?_, ?_⟩ <;>
      (intro h; simp [applyResultUpdate, updCol, h])
  · intro cid r d hok hconv
    cases hpl : placementStep r with
    | error e =>
      unfold prepare_result_data at hok
      rw [hpl] at hok
      exact absurd hok (by simp [Except.map])
    | ok pl =>
      have h2 : (Except.ok ⟨cid, pl, r.lane_boat_number,
          format_race_time (r.start_time.getD []),
          format_race_time (r.finish_time.getD []),
          format_race_time (r.raw_time.getD []),
          convert_time_to_ms (r.total_time.getD []),
          r.adjustment, r.handicap, r.remark, r.notes⟩ : Except Unit ResultData) =
          Except.ok d := by
        rw [← hok]
        unfold prepare_result_data
        rw [hpl]
        rfl
      injection h2 with h3
      rw [← h3]
      exact hconv

/-- Witness for the C10 theorem: an absent placement survives an update. -/
theorem upsert_result_preserves_absent_columns_witness :
    ((⟨3, none, some ['5'], none, none, none, none, none, none, none,
        none⟩ : ResultData).placement = none) ∧
      (applyResultUpdate
          ⟨1, 2, 9, ['5'], some 4, none, none, none, none, none, none, none, none⟩
          ⟨3, none, some ['5'], none, none, none, none, none, none, none, none⟩
          2).placement =
        (⟨1, 2, 9, ['5'], some 4, none, none, none, none, none, none, none,
          none⟩ : ResultRow).placement :=
  ⟨rfl,
    (upsert_result_preserves_absent_columns.2.1
      ⟨1, 2, 9, ['5'], some 4, none, none, none, none, none, none, none, none⟩
      ⟨3, none, some ['5'], none, none, none, none, none, none, none, none⟩
      2).1 rfl⟩

/-- C9: the race-header extraction splits the normalised heading on the
literal `" - "`, extracts the parenthesised category abbreviation
(defaulting to the category name otherwise) and strips the trailing colon
from the race number — the spec's worked header yields cat_abrev `"MV8"`
and race_num `"12"` — and every race lacking a non-empty category
abbreviation is excluded from the schedule entirely. -/
theorem scrape_header_example_and_exclusion :
    (processHeader none exampleHeader = some exampleRace ∧
      exampleRace.cat_abrev = ['M', 'V', '8'] ∧
      exampleRace.race_num = some ['1', '2']) ∧
    (∀ (sd : Option Str) (hs : List Str) (rd : RaceData),
      rd ∈ scheduleOfHeaders sd hs → rd.cat_abrev ≠ []) := by
  constructor
  · exact ⟨by decide, rfl, rfl⟩
  · intro sd hs rd hmem
    simp only [scheduleOfHeaders, List.mem_filterMap] at hmem
    obtain ⟨h, -, hh⟩ := hmem
    cases hph : processHeader sd h with
    | none => rw [hph] at hh; simp at hh
    | some rd2 =>
      rw [hph] at hh
      by_cases hc : rd2.cat_abrev.isEmpty
      · simp [hc] at hh
      · simp only [hc, Bool.not_false, if_true] at hh
        injection hh with hh2
        rw [← hh2]
        intro hnil
        exact hc (by rw [hnil]; rfl)

/-- Witness for the exclusion half of the header theorem: the example race
is in the schedule of its own header, and its abbreviation is nonempty. -/
theorem scrape_header_exclusion_witness :
    exampleRace ∈ scheduleOfHeaders none [exampleHeader] ∧
      exampleRace.cat_abrev ≠ [] :=
  ⟨by decide,
    scrape_header_example_and_exclusion.2 none [exampleHeader] exampleRace
      (by decide)⟩
